import Mathlib

/-!
Verification of `newsletter_tools.py` (outdoor-sports-reporter).

This file gives a shallow embedding of the pure/data-level core of the
pipeline: the tiered TTL cache load functions, the RSS fetch filter and
content cleaner, the markdown report renderer, and the batch AI-enrichment
step, together with theorems settling the specified properties.

Modelling conventions:
* Python dict values occurring in article/record dicts are embedded as
  `PyVal` (strings, lists of strings, ints, `None`); dicts are association
  lists (`Dict`) looked up by first match, which agrees with Python dicts
  for the dicts built here (each key written once, later cache writes
  shadow earlier ones via list prepending).
* Timestamps are rationals (`ℚ`): the code compares `time.time()`-style
  numbers only with `-` and `>`, which the rationals model exactly.
* I/O boundaries (network fetch of a feed, the HTML parser, the LLM call
  and JSON parsing of its reply) enter as explicit parameters: a feed is an
  `Option (List RssEntry)`, a parsed HTML body is a list of `RssNode`s, and
  the outcome of the whole guarded service-call-and-parse block is an
  `Except String Resp` (the `String` being `str(e)` of the raised
  exception).  Everything downstream of those parameters is translated
  from the source.
-/

namespace Newsletter

/-- Embedded Python values for the dict fields used by the pipeline:
strings, lists of strings (`key_persons`, `key_person_bios`,
`curated_angles`), natural numbers (`content_length`) and `None`. -/
inductive PyVal where
  | vstr (s : String)
  | vlist (l : List String)
  | vint (n : Nat)
  | vnone
deriving DecidableEq

/-- A Python dict with `PyVal` values, as an association list. -/
abbrev Dict := List (String × PyVal)

/-- An element of a heterogeneous Python list: either a dict (a record) or
some non-dict object, identified only by a tag. -/
inductive PyObj where
  | dict (kvs : Dict)
  | other (tag : String)
deriving DecidableEq

/-- `d[k]` as an option: first binding of `k` in the association list. -/
def dictFind (d : Dict) (k : String) : Option PyVal :=
  (d.find? (fun p => p.1 == k)).map (fun p => p.2)

/-- Python `d.get(k, default)`. -/
def dictGetD (d : Dict) (k : String) (dflt : PyVal) : PyVal :=
  (dictFind d k).getD dflt

/-- Python `d.get(k, dflt)` where the value is used as a string (all the
code paths embedded here store strings under these keys). -/
def dictGetStr (d : Dict) (k : String) (dflt : String) : String :=
  match dictFind d k with
  | some (.vstr s) => s
  | _ => dflt

/-- Python truthiness of a `PyVal`. -/
def truthy : PyVal → Bool
  | .vstr s => !s.isEmpty
  | .vlist l => !l.isEmpty
  | .vint n => n != 0
  | .vnone => false

/-- Python `bool(d.get(k))`: missing keys are falsy. -/
def truthyAt (d : Dict) (k : String) : Bool :=
  match dictFind d k with
  | some v => truthy v
  | none => false

/-- Python `str(v)` for the values interpolated into f-strings here (the
pipeline only interpolates strings; the other cases are best-effort). -/
def asStr : PyVal → String
  | .vstr s => s
  | .vlist l => toString l
  | .vint n => toString n
  | .vnone => "None"

/-- A `PyVal` read where a list of strings is expected. -/
def asStrList : PyVal → List String
  | .vlist l => l
  | _ => []

/-- Keep the first occurrence of each element, preserving first-seen order.
Embeds the source's explicit `if line not in unique_lines: append` loop,
and also stands in for `list(set(...))`, whose iteration order is
deterministic within one interpreter process; the claims proved here do
not depend on which deterministic order is chosen. -/
def dedupKeepFirst {α : Type} [BEq α] (l : List α) : List α :=
  l.foldl (fun acc x => if acc.contains x then acc else acc ++ [x]) []

/-! ## CacheStore: TTL'd load functions (`load_*_from_cache`) -/

/-- An on-disk cache file: its mtime and its payload; `payload = none`
models a file whose deserialisation raises (corrupt/unreadable). -/
structure CacheFile (α : Type) where
  writeTime : ℚ
  payload : Option α
deriving DecidableEq

/-- `RSS_CACHE_TTL = 3600  # 1小时缓存` -/
def RSS_CACHE_TTL : ℚ := 3600

/-- `HTML_CACHE_TTL = 3600 * 6  # 6小时缓存` -/
def HTML_CACHE_TTL : ℚ := 3600 * 6

/-- `AI_CACHE_TTL = 86400 * 7  # 7天缓存` -/
def AI_CACHE_TTL : ℚ := 86400 * 7

/-- Common body of `load_rss_from_cache` / `load_html_from_cache` /
`load_ai_from_cache`: missing file → `None`; `current_time - cache_time >
TTL` → `None`; deserialisation failure (the `except` arm) → `None`;
otherwise the payload. -/
def loadFromCache {α : Type} (ttl : ℚ) (entry : Option (CacheFile α))
    (now : ℚ) : Option α :=
  match entry with
  | none => none
  | some e =>
    if now - e.writeTime > ttl then none
    else
      match e.payload with
      | none => none
      | some d => some d

/-- `load_rss_from_cache` (namespace feed, TTL 1 h). -/
def load_rss_from_cache (entry : Option (CacheFile Dict)) (now : ℚ) :
    Option Dict :=
  loadFromCache RSS_CACHE_TTL entry now

/-- `load_html_from_cache` (namespace page, TTL 6 h); on a hit it returns
`cached_data.get('content')`. -/
def load_html_from_cache (entry : Option (CacheFile Dict)) (now : ℚ) :
    Option PyVal :=
  (loadFromCache HTML_CACHE_TTL entry now).bind (fun d => dictFind d "content")

/-- `load_ai_from_cache` (namespace enrichment, TTL 7 d). -/
def load_ai_from_cache (entry : Option (CacheFile Dict)) (now : ℚ) :
    Option Dict :=
  loadFromCache AI_CACHE_TTL entry now

/-! ## SourceFetcher: feed strategy (`_fetch_from_rss`, `_clean_rss_content`) -/

/-- A node of the parsed HTML of an entry's `raw_content`
(`description + ' ' + summary + ' ' + content_encoded` after escape
handling, as decomposed by the external HTML parser, with
`figure`/`script`/`style`/`img` nodes already dropped — the source
`decompose`s them before any text is read). -/
structure RssNode where
  tag : String
  text : String
deriving DecidableEq

/-- A parsed feed entry.  `hasPublished` models
`hasattr(entry, 'published_parsed')`; `published` is the entry's publish
date (`article_date.date()`) as an ordinal day, exactly ordered as Python
`date` comparison orders dates. -/
structure RssEntry where
  hasPublished : Bool
  published : Int
  title : String
  link : String
  nodes : List RssNode
deriving DecidableEq

/-- Python `str.strip()` (drop leading and trailing whitespace), stated on
the character list so that it evaluates by kernel reduction. -/
def pyStrip (s : String) : String :=
  ⟨((s.data.dropWhile Char.isWhitespace).reverse.dropWhile Char.isWhitespace).reverse⟩

/-- The boilerplate filter of `_clean_rss_content`:
`"The post" in text and "appeared first on" in text`. -/
def isBoilerplate (t : String) : Bool :=
  decide ("The post".data <:+: t.data) && decide ("appeared first on".data <:+: t.data)

/-- `_clean_rss_content` from the parsed-node stage on: walk the
`p`/`h1`/`h2`/`h3` nodes, strip each text, drop boilerplate and empty
lines, de-duplicate exact repeats keeping first-seen order, join with
blank lines. -/
def cleanRssContent (nodes : List RssNode) : String :=
  let lines := nodes.filterMap (fun n =>
    if n.tag = "p" ∨ n.tag = "h1" ∨ n.tag = "h2" ∨ n.tag = "h3" then
      let t := pyStrip n.text
      if isBoilerplate t then none
      else if t.isEmpty then none
      else some t
    else none)
  String.intercalate "\n\n" (dedupKeepFirst lines)

/-- An article dict produced by `_fetch_from_rss`
(`site`/`url`/`title`/`date`/`content_text`). -/
structure Article where
  site : String
  url : String
  title : String
  date : Int
  content_text : String
deriving DecidableEq

/-- The date filter of `_fetch_from_rss`: the entry has a parsed publish
date and `start_date <= article_date.date() <= end_date`. -/
def inWindow (startD endD : Int) (e : RssEntry) : Bool :=
  e.hasPublished && (decide (startD ≤ e.published) && decide (e.published ≤ endD))

/-- The article built for an in-window entry. -/
def mkRssArticle (siteUrl : String) (e : RssEntry) : Article :=
  ⟨siteUrl, e.link, e.title, e.published, cleanRssContent e.nodes⟩

/-- `_fetch_from_rss`: `feed = none` models a feed that failed to
fetch/parse (falsy `feed`), yielding zero articles; otherwise filter
entries to the inclusive date window, clean each kept entry's content and
keep the article only if `content_text and len(content_text) > 50`. -/
def fetchFromRss (feed : Option (List RssEntry)) (siteUrl : String)
    (startD endD : Int) : List Article :=
  match feed with
  | none => []
  | some entries =>
    let articleData := entries.filter (fun e => inWindow startD endD e)
    articleData.filterMap (fun e =>
      let ct := cleanRssContent e.nodes
      if !ct.isEmpty && ct.length > 50 then some (mkRssArticle siteUrl e)
      else none)

/-! ## ReportRenderer (`_generate_markdown`) -/

/-- The fields of `NewsConfig` used by the embedded functions. -/
structure NewsConfig where
  name : String
  ai_prompt : String := ""
  ai_system_prompt : String := "你是一个专业的新闻分析助手，擅长批量提取文章关键信息并进行中英文翻译。"
  report_header : String := "# 新闻汇总\n"
deriving DecidableEq

/-- `config.report_header if config and config.report_header else
'# 户外运动新闻汇总\n'`. -/
def effectiveHeader (cfg : Option NewsConfig) : String :=
  match cfg with
  | some c => if !c.report_header.isEmpty then c.report_header else "# 户外运动新闻汇总\n"
  | none => "# 户外运动新闻汇总\n"

/-- `f'生成时间: {...}\n'` — the one line of the report that depends on
the clock. -/
def timeLine (now : String) : String := s!"生成时间: {now}\n"

/-- `f'共收录 {len(articles)} 篇文章\n'` — the stated item count. -/
def countLine (n : Nat) : String :=
  let nS := toString n
  s!"共收录 {nS} 篇文章\n"

/-- `list(set(article.get('site') for article in articles if
isinstance(article, dict) and article.get('site')))` — the deduplicated
source sites, in a fixed deterministic order (see `dedupKeepFirst`). -/
def sourceSites (articles : List PyObj) : List PyVal :=
  dedupKeepFirst (articles.filterMap (fun a =>
    match a with
    | .dict d => (dictFind d "site").bind (fun v => if truthy v then some v else none)
    | .other _ => none))

/-- The key-person bullet lines: each name rendered as a generated search
link, with its parallel biography when one exists
(`bio = key_person_bios[j] if j < len(key_person_bios) else ''`). -/
def personLines (names bios : List String) : List String :=
  names.enum.map (fun p =>
    let j := p.1
    let name := p.2
    let personEncoded := name.replace " " "+"
    let searchUrl := "https://www.google.com/search?q=" ++ personEncoded ++ "+outdoor"
    let bio := bios.getD j ""
    if !bio.isEmpty then s!"- [{name}]({searchUrl})：{bio}\n"
    else s!"- [{name}]({searchUrl})\n")

/-- The lines appended for one dict article (1-based index `i` from
`enumerate(articles, 1)`), given its `summary` value `sm`; translated
line-by-line from the body of the render loop. -/
def sectionLines (i : Nat) (d : Dict) (sm : PyVal) : List String :=
  let iS := toString i
  let ct := asStr (dictGetD d "chinese_title" (.vstr "未知标题"))
  let headingLine := s!"\n## {iS}. {ct}\n"
  let otLines :=
    if truthyAt d "original_title" &&
        (dictFind d "original_title" != dictFind d "chinese_title") then
      let otS := asStr ((dictFind d "original_title").getD .vnone)
      [s!"**原标题**: {otS}\n"]
    else []
  let dateLines :=
    if truthyAt d "date" then
      let dS := asStr ((dictFind d "date").getD .vnone)
      [s!"**日期**: {dS}\n"]
    else []
  let urlS := asStr (dictGetD d "url" (.vstr "未知链接"))
  let urlLine := s!"**链接**: {urlS}\n"
  let eventLines :=
    if truthyAt d "event_date" then
      let eS := asStr ((dictFind d "event_date").getD .vnone)
      [s!"**事件日期**: {eS}\n"]
    else []
  let locLines :=
    if truthyAt d "location_name" then
      let lnS := asStr ((dictFind d "location_name").getD .vnone)
      let lcV := dictGetD d "location_context" (.vstr "")
      let lcS := asStr lcV
      if truthy lcV then [s!"**地点**: {lnS}。{lcS}\n"]
      else [s!"**地点**: {lnS}\n"]
    else ["**地点**: 无\n"]
  let personsBlock :=
    if truthyAt d "key_persons" then
      let kp := asStrList ((dictFind d "key_persons").getD .vnone)
      let bios := asStrList (dictGetD d "key_person_bios" (.vlist []))
      ["**关键人物**:\n"] ++ personLines kp bios ++ ["\n"]
    else ["**关键人物**: 无\n"]
  let anglesBlock :=
    if truthyAt d "curated_angles" then
      let ang := asStrList ((dictFind d "curated_angles").getD .vnone)
      ["**选题推荐**:\n"] ++ ang.map (fun it => s!"  - {it}\n")
    else ["**选题推荐**: 无\n"]
  let smS := asStr sm
  [headingLine] ++ otLines ++ dateLines ++ [urlLine] ++ eventLines ++ locLines
    ++ personsBlock ++ anglesBlock ++ [s!"\n**摘要**: {smS}\n", "\n---\n"]

/-- One iteration of the render loop for a dict article.  In the source
the only subscription not dominated by a truthiness guard on the same key
is `article["summary"]`; a missing `summary` raises `KeyError` and aborts
the whole render (no lines survive), so the check is hoisted to the head
here.  The guarded subscriptions appear in `sectionLines` as lookups
whose fallback is unreachable under their guards. -/
def renderSection (i : Nat) (d : Dict) : Except String (List String) :=
  match dictFind d "summary" with
  | none => .error "summary"
  | some sm => .ok (sectionLines i d sm)

/-- The render loop `for i, article in enumerate(articles, 1)`: non-dict
entries are skipped (logged) but still consume an index; each dict entry
contributes one section. -/
def renderSections : Nat → List PyObj → Except String (List (List String))
  | _, [] => .ok []
  | i, .other _ :: rest => renderSections (i + 1) rest
  | i, .dict d :: rest => do
    let sec ← renderSection i d
    let more ← renderSections (i + 1) rest
    .ok (sec :: more)

/-- `_generate_markdown`, as the list of strings the source joins (the
`markdown_lines` list): empty input returns `''`; otherwise header,
generation time, stated count, the source-site block when non-empty, then
the article sections.  A `KeyError` (missing `summary`) is the error
case. -/
def generateMarkdownLines (articles : List PyObj) (cfg : Option NewsConfig)
    (now : String) : Except String (List String) :=
  if articles.isEmpty then .ok []
  else
    let sites := sourceSites articles
    let siteLines :=
      if !sites.isEmpty then
        ["\n## 搜索来源网站\n"]
          ++ sites.map (fun v => let sS := asStr v; s!"- {sS}\n")
          ++ ["\n---\n"]
      else []
    match renderSections 1 articles with
    | .error e => .error e
    | .ok secs =>
      .ok ([effectiveHeader cfg, timeLine now, countLine articles.length]
        ++ siteLines ++ secs.flatten)

/-- `_generate_markdown` proper: `''.join(markdown_lines)`. -/
def generateMarkdown (articles : List PyObj) (cfg : Option NewsConfig)
    (now : String) : Except String String :=
  match generateMarkdownLines articles cfg now with
  | .error e => .error e
  | .ok l => .ok (String.join l)

/-- Remove the generation-timestamp line (index 1 of the line list) from a
render result. -/
def stripGenTime : Except String (List String) → Except String (List String)
  | .error e => .error e
  | .ok l => .ok (l.eraseIdx 1)

/-! ## EnrichmentBatcher (`_process_batch_with_ai`) -/

/-- The AI cache as seen by the batcher: association of article URL to the
cached record, newest write first (a file overwrite is a prepend, and
reads take the newest binding — the file-system semantics of
`save_ai_to_cache` / `load_ai_from_cache` for fresh entries). -/
abbrev AiCache := List (String × Dict)

/-- Read the enrichment cache at a URL. -/
def cacheGet (c : AiCache) (u : String) : Option Dict :=
  ((c.find? (fun p => p.1 == u)).map (fun p => p.2))

/-- `save_ai_to_cache(url, record)`: overwrite the entry at `url`. -/
def cachePut (c : AiCache) (u : String) (r : Dict) : AiCache :=
  (u, r) :: c

/-- The batcher's cache-hit test `if cached_result:` — a present but
empty dict is falsy and counts as a miss. -/
def cacheHit (c : AiCache) (u : String) : Option Dict :=
  match cacheGet c u with
  | some d => if d.isEmpty then none else some d
  | none => none

/-- The parsed JSON of the service reply: either an array or a single
object (`if not isinstance(results, list): results = [results]` wraps the
latter). -/
inductive Resp where
  | arr (rs : List PyObj)
  | single (r : PyObj)

/-- The cache-hit sub-list of a batch, paired with the hit records
(`cached_results` in the source, order preserved). -/
def batchCacheHits (cache : AiCache) (batch : List Dict) : List (Dict × Dict) :=
  batch.filterMap (fun a => (cacheHit cache (dictGetStr a "url" "")).map (fun r => (a, r)))

/-- The cache-miss sub-list of a batch (`articles_to_process`, order
preserved). -/
def batchCacheMisses (cache : AiCache) (batch : List Dict) : List Dict :=
  batch.filter (fun a => (cacheHit cache (dictGetStr a "url" "")).isNone)

/-- `if not isinstance(result, dict): result = {'chinese_title':
article.get('title', '')}`. -/
def coerceResult (a : Dict) : PyObj → Dict
  | .dict r => r
  | .other _ => [("chinese_title", dictGetD a "title" (.vstr ""))]

/-- The record built for article `a` from service result `r`
(`processed_article` in the source, keys in source order). -/
def mkProcessed (a : Dict) (r : Dict) (now : String) : Dict :=
  [("original_title", dictGetD a "title" (.vstr "")),
   ("chinese_title", dictGetD r "chinese_title" (dictGetD a "title" (.vstr ""))),
   ("summary", dictGetD r "summary" (.vstr ((dictGetStr a "content_text" "").take 200 ++ "..."))),
   ("key_persons", dictGetD r "key_persons" (.vlist [])),
   ("key_person_bios", dictGetD r "key_person_bios" (.vlist [])),
   ("location_name", dictGetD r "location_name" (.vstr "未知地点")),
   ("location_context", dictGetD r "location_context" (.vstr "")),
   ("event_date", dictGetD r "event_date" (dictGetD a "date" (.vstr ""))),
   ("curated_angles", dictGetD r "curated_angles" (.vlist [])),
   ("url", dictGetD a "url" (.vstr "")),
   ("date", dictGetD a "date" (.vstr "")),
   ("site", dictGetD a "site" (.vstr "")),
   ("ai_processed_at", .vstr now),
   ("content_length", .vint (dictGetStr a "content_text" "").length)]

/-- The degradation record built for article `a` in the `except` arm:
original fields, empty analysis fields, an explicit `error` marker
carrying `str(e)`. -/
def mkFallback (a : Dict) (err : String) (now : String) : Dict :=
  [("original_title", dictGetD a "title" (.vstr "")),
   ("chinese_title", dictGetD a "title" (.vstr "")),
   ("summary", .vstr ((dictGetStr a "content_text" "").take 200 ++ "...")),
   ("key_persons", .vlist []),
   ("key_person_bios", .vlist []),
   ("location_name", .vstr "未知地点"),
   ("location_context", .vstr ""),
   ("event_date", dictGetD a "date" (.vstr "")),
   ("curated_angles", .vlist []),
   ("url", dictGetD a "url" (.vstr "")),
   ("date", dictGetD a "date" (.vstr "")),
   ("site", dictGetD a "site" (.vstr "")),
   ("ai_processed_at", .vstr now),
   ("content_length", .vint (dictGetStr a "content_text" "").length),
   ("error", .vstr err)]

/-- The persistence loop `for processed_article in ...: url = ....get('url',
''); if url: save_ai_to_cache(url, processed_article)`. -/
def saveAll (c : AiCache) (records : List Dict) : AiCache :=
  records.foldl (fun acc r =>
    let u := dictGetStr r "url" ""
    if u.isEmpty then acc else cachePut acc u r) c

/-- `_process_batch_with_ai`, with the cache state explicit and the whole
guarded service-call/parse block abstracted into `outcome : Except String
Resp` (`.error e` is any exception raised inside the `try`, carrying
`str(e)`; prompt construction, being pure string building that does not
influence the returned records, is elided).  Returns the record list and
the new cache, or `.error` for the `ValueError`s raised outside the `try`
when the config lacks its prompts. -/
def processBatchWithAi (cache : AiCache) (batch : List Dict)
    (cfg : Option NewsConfig) (outcome : Except String Resp) (now : String) :
    Except String (List Dict × AiCache) :=
  if batch.isEmpty then .ok ([], cache)
  else
    let cachedResults := batchCacheHits cache batch
    let toProcess := batchCacheMisses cache batch
    if toProcess.isEmpty then .ok (cachedResults.map (fun p => p.2), cache)
    else
      match cfg with
      | none => .error "NewsConfig.ai_prompt is required for AI processing"
      | some c =>
        if c.ai_prompt.isEmpty then
          .error "NewsConfig.ai_prompt is required for AI processing"
        else if c.ai_system_prompt.isEmpty then
          .error "NewsConfig.ai_system_prompt is required for AI processing"
        else
          match outcome with
          | .ok resp =>
            let results := match resp with | .arr rs => rs | .single r => [r]
            -- `for i, result in enumerate(results): if i < len(articles_to_process):`
            let newly := (toProcess.zip results).map
              (fun p => mkProcessed p.1 (coerceResult p.1 p.2) now)
            .ok (cachedResults.map (fun p => p.2) ++ newly, saveAll cache newly)
          | .error e =>
            let fallback := batch.map (fun a => mkFallback a e now)
            .ok (fallback, saveAll cache fallback)

/-! ## Theorems about the cache load functions (claims C6, C8) -/

/-- C6: the namespace TTL constants are feed = 1 hour (3600 s), page = 6
hours (21600 s) and enrichment = 7 days (604800 s), and for each of them a
cache entry written at time `T` (with intact payload) is read back as a
hit at `T + ε` for every `ε < TTL` and as a miss at `T + TTL + ε` for
every `ε > 0`. -/
theorem cache_ttl_hit_before_expiry_miss_after :
    RSS_CACHE_TTL = 3600 ∧ HTML_CACHE_TTL = 21600 ∧ AI_CACHE_TTL = 604800 ∧
    ∀ ttl : ℚ, ttl ∈ [RSS_CACHE_TTL, HTML_CACHE_TTL, AI_CACHE_TTL] →
      ∀ (T ε : ℚ) (d : Dict),
        (ε < ttl → loadFromCache ttl (some ⟨T, some d⟩) (T + ε) = some d) ∧
        (0 < ε → loadFromCache ttl (some ⟨T, some d⟩) (T + ttl + ε) = none) := by
  refine ⟨rfl, by norm_num [HTML_CACHE_TTL], by norm_num [AI_CACHE_TTL], ?_⟩
  intro ttl _ T ε d
  constructor
  · intro h
    simp only [loadFromCache]
    rw [if_neg]
    push_neg
    linarith
  · intro h
    simp only [loadFromCache]
    rw [if_pos]
    linarith

/-- Witness for `cache_ttl_hit_before_expiry_miss_after` at the feed
namespace: an entry written at 0 is a hit at 10 and a miss at 3601. -/
theorem cache_ttl_hit_before_expiry_miss_after_witness :
    loadFromCache RSS_CACHE_TTL (some ⟨0, some ([] : Dict)⟩) 10 = some [] ∧
    loadFromCache RSS_CACHE_TTL (some ⟨0, some ([] : Dict)⟩) 3601 = none := by
  have h1 := (cache_ttl_hit_before_expiry_miss_after.2.2.2 RSS_CACHE_TTL
    (by simp) 0 10 []).1 (by norm_num [RSS_CACHE_TTL])
  have h2 := (cache_ttl_hit_before_expiry_miss_after.2.2.2 RSS_CACHE_TTL
    (by simp) 0 1 []).2 (by norm_num)
  have e1 : (0 : ℚ) + 10 = 10 := by norm_num
  have e2 : (0 : ℚ) + RSS_CACHE_TTL + 1 = 3601 := by norm_num [RSS_CACHE_TTL]
  rw [e1] at h1
  rw [e2] at h2
  exact ⟨h1, h2⟩

/-- C8: for each of the three load functions, an expired entry, a missing
file, or an entry whose deserialisation fails (`payload = none`) is
reported as a miss (`None`); the functions are total, so no error escapes
them. -/
theorem bad_cache_entry_is_miss :
    ∀ (now : ℚ) (e : CacheFile Dict),
      ((RSS_CACHE_TTL < now - e.writeTime ∨ e.payload = none) →
        load_rss_from_cache (some e) now = none) ∧
      ((HTML_CACHE_TTL < now - e.writeTime ∨ e.payload = none) →
        load_html_from_cache (some e) now = none) ∧
      ((AI_CACHE_TTL < now - e.writeTime ∨ e.payload = none) →
        load_ai_from_cache (some e) now = none) ∧
      load_rss_from_cache none now = none ∧
      load_html_from_cache none now = none ∧
      load_ai_from_cache none now = none := by
  have gen : ∀ (ttl : ℚ) (e : CacheFile Dict) (now : ℚ),
      (ttl < now - e.writeTime ∨ e.payload = none) →
      loadFromCache ttl (some e) now = none := by
    intro ttl e now h
    simp only [loadFromCache]
    rcases h with h | h
    · rw [if_pos h]
    · by_cases hc : now - e.writeTime > ttl
      · rw [if_pos hc]
      · rw [if_neg hc, h]
  intro now e
  refine ⟨fun h => gen _ _ _ h, fun h => ?_, fun h => gen _ _ _ h, rfl, rfl, rfl⟩
  simp only [load_html_from_cache, gen _ _ _ h, Option.bind]

/-- Witness for `bad_cache_entry_is_miss`: a corrupt feed entry, an
expired page entry and an expired enrichment entry all read as misses. -/
theorem bad_cache_entry_is_miss_witness :
    load_rss_from_cache (some ⟨0, none⟩) 1 = none ∧
    load_html_from_cache (some ⟨0, some []⟩) 21601 = none ∧
    load_ai_from_cache (some ⟨0, some []⟩) 604801 = none := by
  refine ⟨(bad_cache_entry_is_miss 1 ⟨0, none⟩).1 (Or.inr rfl), ?_, ?_⟩
  · exact (bad_cache_entry_is_miss 21601 ⟨0, some []⟩).2.1
      (Or.inl (by norm_num [HTML_CACHE_TTL]))
  · exact (bad_cache_entry_is_miss 604801 ⟨0, some []⟩).2.2.1
      (Or.inl (by norm_num [AI_CACHE_TTL]))

/-! ## Theorems about the feed fetch (claims C7, C3) -/

/-- C7: when every in-window entry passes the quality gate, the fetch
output is exactly the list of entries whose publish date lies in
`[startD, endD]` inclusive, in feed order; and an entry dated on the start
or end boundary is in the window. -/
theorem rss_date_window_inclusive (entries : List RssEntry) (siteUrl : String)
    (s e : Int)
    (hq : ∀ ent ∈ entries, inWindow s e ent = true →
      50 < (cleanRssContent ent.nodes).length) :
    fetchFromRss (some entries) siteUrl s e =
      (entries.filter (fun ent => inWindow s e ent)).map (mkRssArticle siteUrl) ∧
    ∀ ent : RssEntry, ent.hasPublished = true → s ≤ e →
      (ent.published = s ∨ ent.published = e) → inWindow s e ent = true := by
  constructor
  · have hq' : ∀ ent ∈ entries.filter (fun ent => inWindow s e ent),
        50 < (cleanRssContent ent.nodes).length := by
      intro ent hent
      rcases List.mem_filter.mp hent with ⟨hm, hw⟩
      exact hq ent hm hw
    simp only [fetchFromRss]
    generalize entries.filter (fun ent => inWindow s e ent) = l at hq'
    induction l with
    | nil => rfl
    | cons a t ih =>
      have hl := hq' a (List.mem_cons_self a t)
      have hne : (cleanRssContent a.nodes).isEmpty = false := by
        rcases Bool.eq_false_or_eq_true (cleanRssContent a.nodes).isEmpty with h | h
        · exfalso
          have he : cleanRssContent a.nodes = "" := (String.isEmpty_iff _).mp h
          rw [he] at hl
          simp at hl
        · exact h
      rw [List.filterMap_cons, List.map_cons]
      have hcond : (!(cleanRssContent a.nodes).isEmpty &&
          decide (50 < (cleanRssContent a.nodes).length)) = true := by
        simp [hne, hl]
      simp only [gt_iff_lt, hcond, if_true]
      rw [ih (fun ent hm => hq' ent (List.mem_cons_of_mem a hm))]
  · intro ent hp hse hb
    rcases hb with hb | hb <;>
      simp [inWindow, hp, hb, hse]

/-- Entries for `rss_date_window_inclusive_witness`: the window is
`[10, 20]`; dates 5 (before), 10 (start boundary), 15 (inside), 20 (end
boundary), 25 (after), plus an undated entry. -/
def c7Body : List RssNode :=
  [⟨"p", "abcdefghijabcdefghijabcdefghijabcdefghijabcdefghijabcdefghij"⟩]

/-- Entry dated on the start boundary. -/
def c7StartEntry : RssEntry := ⟨true, 10, "on start", "https://x/s", c7Body⟩

/-- Entry dated on the end boundary. -/
def c7EndEntry : RssEntry := ⟨true, 20, "on end", "https://x/e", c7Body⟩

/-- Feed with entries before, on, inside and after the window. -/
def c7Entries : List RssEntry :=
  [⟨true, 5, "before", "https://x/b", c7Body⟩,
   c7StartEntry,
   ⟨true, 15, "inside", "https://x/i", c7Body⟩,
   c7EndEntry,
   ⟨true, 25, "after", "https://x/a", c7Body⟩,
   ⟨false, 0, "undated", "https://x/u", c7Body⟩]

/-- Witness for `rss_date_window_inclusive`: on the concrete feed the
output is exactly the in-window entries, and both boundary entries are
selected. -/
theorem rss_date_window_inclusive_witness :
    fetchFromRss (some c7Entries) "https://x" 10 20 =
      (c7Entries.filter (fun ent => inWindow 10 20 ent)).map (mkRssArticle "https://x") ∧
    inWindow 10 20 c7StartEntry = true ∧
    inWindow 10 20 c7EndEntry = true := by
  have h := rss_date_window_inclusive c7Entries "https://x" 10 20 (by decide)
  exact ⟨h.1, h.2 c7StartEntry rfl (by norm_num) (Or.inl rfl),
    h.2 c7EndEntry rfl (by norm_num) (Or.inr rfl)⟩

/-- C3 (amended): an in-window entry is kept iff its cleaned body text is
strictly longer than 50 characters — a body of exactly 50 characters is
discarded. -/
theorem rss_quality_gate_strict (ent : RssEntry) (siteUrl : String)
    (s e : Int) (hw : inWindow s e ent = true) :
    fetchFromRss (some [ent]) siteUrl s e =
      (if 50 < (cleanRssContent ent.nodes).length
        then [mkRssArticle siteUrl ent] else []) := by
  simp only [fetchFromRss, List.filter, hw, List.filterMap]
  by_cases hl : 50 < (cleanRssContent ent.nodes).length
  · have hne : (cleanRssContent ent.nodes).isEmpty = false := by
      rcases Bool.eq_false_or_eq_true (cleanRssContent ent.nodes).isEmpty with h | h
      · exfalso
        have he : cleanRssContent ent.nodes = "" := (String.isEmpty_iff _).mp h
        rw [he] at hl
        simp at hl
      · exact h
    simp [hne, hl]
  · simp [hl]

/-- A cleaned body of exactly 51 characters, for the witness. -/
def c3KeptEntry : RssEntry :=
  ⟨true, 0, "kept", "https://x/k",
    [⟨"p", "aaaaaaaaaaaaaaaaaaaaaaaaaaaaaaaaaaaaaaaaaaaaaaaaaaa"⟩]⟩

/-- Witness for `rss_quality_gate_strict`: a 51-character body inside the
window is kept. -/
theorem rss_quality_gate_strict_witness :
    fetchFromRss (some [c3KeptEntry]) "https://x" 0 0 =
      [mkRssArticle "https://x" c3KeptEntry] := by
  have h := rss_quality_gate_strict c3KeptEntry "https://x" 0 0 (by decide)
  rw [h]
  decide

/-- An in-window entry whose cleaned body is exactly 50 characters. -/
def c3Entry : RssEntry :=
  ⟨true, 0, "exactly fifty", "https://x/50",
    [⟨"p", "aaaaaaaaaaaaaaaaaaaaaaaaaaaaaaaaaaaaaaaaaaaaaaaaaa"⟩]⟩

/-- Counterexample to C3 as stated: this in-window entry's cleaned body
has exactly 50 characters (so "50 or more" would keep it), yet the fetch
output discards it. -/
theorem rss_quality_gate_counterexample :
    inWindow 0 0 c3Entry = true ∧
    (cleanRssContent c3Entry.nodes).length = 50 ∧
    fetchFromRss (some [c3Entry]) "https://x" 0 0 = [] := by decide

/-! ## Theorems about the report renderer (claims C5, C10, C4) -/

/-- `isinstance(article, dict)`. -/
def isDict : PyObj → Bool
  | .dict _ => true
  | .other _ => false

/-- The dict entries that will not raise: a dict entry satisfies
`hasSummary` iff it has a `summary` key (non-dict entries are skipped
before the subscription and trivially satisfy it). -/
def hasSummary : PyObj → Bool
  | .dict kvs => (dictFind kvs "summary").isSome
  | .other _ => true

/-- Number of rendered per-item sections (one per loop iteration that was
not skipped), `none` when rendering raised. -/
def sectionCount (r : Except String (List (List String))) : Option Nat :=
  match r with
  | .ok secs => some secs.length
  | .error _ => none

/-- The line list of a successful render (`[]` for a raised render). -/
def okLines (r : Except String (List String)) : List String :=
  match r with
  | .ok l => l
  | .error _ => []

/-- C5: the renderer is deterministic — two renders of the same input list
and configuration agree line-for-line except for the generation-timestamp
line (in particular the deduplicated source-site list appears identically,
in the same order, in both outputs). -/
theorem markdown_deterministic_modulo_timestamp (articles : List PyObj)
    (cfg : Option NewsConfig) (t₁ t₂ : String) :
    stripGenTime (generateMarkdownLines articles cfg t₁) =
      stripGenTime (generateMarkdownLines articles cfg t₂) := by
  unfold generateMarkdownLines
  by_cases he : articles.isEmpty
  · rw [if_pos he, if_pos he]
  · rw [if_neg he, if_neg he]
    cases h : renderSections 1 articles with
    | error e => rfl
    | ok secs => rfl

/-- The render loop raises the missing-`summary` `KeyError` as soon as
some dict entry lacks the key. -/
theorem renderSections_error_of_missing (articles : List PyObj) :
    ∀ i : Nat,
      (∃ kvs, PyObj.dict kvs ∈ articles ∧ dictFind kvs "summary" = none) →
      renderSections i articles = .error "summary" := by
  induction articles with
  | nil =>
    intro i h
    rcases h with ⟨kvs, hm, _⟩
    simp at hm
  | cons a rest ih =>
    intro i h
    rcases h with ⟨kvs, hm, hnone⟩
    cases a with
    | other t =>
      have hm' : PyObj.dict kvs ∈ rest := by
        rcases List.mem_cons.mp hm with h1 | h1
        · cases h1
        · exact h1
      simpa only [renderSections] using ih (i + 1) ⟨kvs, hm', hnone⟩
    | dict d =>
      rcases List.mem_cons.mp hm with h1 | h1
      · have hd : kvs = d := by injection h1
        subst hd
        simp only [renderSections, renderSection, hnone]
        rfl
      · cases hs : dictFind d "summary" with
        | none =>
          simp only [renderSections, renderSection, hs]
          rfl
        | some sm =>
          have hr := ih (i + 1) ⟨kvs, h1, hnone⟩
          simp only [renderSections, renderSection, hs, hr]
          rfl

/-- When every dict entry carries `summary` the render loop succeeds, with
one section per dict entry (non-dict entries are skipped, not raised
on). -/
theorem renderSections_ok_of_summary (articles : List PyObj) :
    ∀ i : Nat,
      (∀ a ∈ articles, hasSummary a = true) →
      ∃ secs, renderSections i articles = .ok secs ∧
        secs.length = (articles.filter (fun a => isDict a)).length := by
  induction articles with
  | nil => exact fun i _ => ⟨[], rfl, rfl⟩
  | cons a rest ih =>
    intro i h
    cases a with
    | other t =>
      obtain ⟨secs, h1, h2⟩ := ih (i + 1)
        (fun a hm => h a (List.mem_cons_of_mem _ hm))
      refine ⟨secs, ?_, ?_⟩
      · simpa only [renderSections] using h1
      · simpa [isDict, List.filter_cons] using h2
    | dict d =>
      have hs : (dictFind d "summary").isSome = true := by
        simpa [hasSummary] using h (.dict d) (List.mem_cons_self _ _)
      obtain ⟨sm, hsm⟩ := Option.isSome_iff_exists.mp hs
      obtain ⟨secs, h1, h2⟩ := ih (i + 1)
        (fun a hm => h a (List.mem_cons_of_mem _ hm))
      refine ⟨sectionLines i d sm :: secs, ?_, ?_⟩
      · simp only [renderSections, renderSection, hsm, h1]
        rfl
      · simpa [isDict, List.filter_cons] using congrArg Nat.succ h2

/-- C10: `_generate_markdown` reads `summary` by direct indexing — if any
dict element of the input lacks a `summary` key the render raises
`KeyError` (the entry is not skipped); when every dict element has the
key, rendering succeeds. -/
theorem markdown_requires_summary_key (articles : List PyObj)
    (cfg : Option NewsConfig) (now : String) :
    ((∃ kvs, PyObj.dict kvs ∈ articles ∧ dictFind kvs "summary" = none) →
      generateMarkdown articles cfg now = .error "summary") ∧
    ((∀ a ∈ articles, hasSummary a = true) →
      (generateMarkdown articles cfg now).toOption.isSome = true) := by
  constructor
  · intro h
    have hne : articles ≠ [] := by
      rcases h with ⟨kvs, hm, _⟩
      intro hcon
      subst hcon
      simp at hm
    have he : articles.isEmpty = false := by
      cases articles with
      | nil => exact absurd rfl hne
      | cons a rest => rfl
    have hr := renderSections_error_of_missing articles 1 h
    simp [generateMarkdown, generateMarkdownLines, he, hr]
  · intro h
    by_cases he : articles.isEmpty
    · simp [generateMarkdown, generateMarkdownLines, he, Except.toOption]
    · obtain ⟨secs, h1, _⟩ := renderSections_ok_of_summary articles 1 h
      simp [generateMarkdown, generateMarkdownLines, he, h1, Except.toOption]

/-- A record lacking the `summary` key. -/
def c10Bad : List PyObj := [.dict [("chinese_title", .vstr "无摘要")]]

/-- Records all carrying `summary`. -/
def c10Good : List PyObj :=
  [.dict [("chinese_title", .vstr "标题"), ("summary", .vstr "摘要")]]

/-- Witness for `markdown_requires_summary_key`: one record without
`summary` raises; one record with it renders. -/
theorem markdown_requires_summary_key_witness :
    generateMarkdown c10Bad none "T" = .error "summary" ∧
    (generateMarkdown c10Good none "T").toOption.isSome = true := by
  refine ⟨(markdown_requires_summary_key c10Bad none "T").1
    ⟨[("chinese_title", .vstr "无摘要")], by decide, rfl⟩, ?_⟩
  exact (markdown_requires_summary_key c10Good none "T").2 (by decide)

/-- C4 (amended): for a non-empty input whose dict entries all carry
`summary`, the stated item count is the number of input entries, while
the number of rendered sections is the number of dict entries; the two
agree whenever every entry is a record.  Non-record entries are skipped
(without raising) but still counted by the stated count. -/
theorem markdown_count_and_sections (articles : List PyObj)
    (cfg : Option NewsConfig) (now : String)
    (hne : articles ≠ [])
    (hsum : ∀ a ∈ articles, hasSummary a = true) :
    sectionCount (renderSections 1 articles) =
      some (articles.filter (fun a => isDict a)).length ∧
    countLine articles.length ∈ okLines (generateMarkdownLines articles cfg now) ∧
    ((∀ a ∈ articles, isDict a = true) →
      sectionCount (renderSections 1 articles) = some articles.length) := by
  obtain ⟨secs, h1, h2⟩ := renderSections_ok_of_summary articles 1 hsum
  have he : articles.isEmpty = false := by
    cases articles with
    | nil => exact absurd rfl hne
    | cons a rest => rfl
  refine ⟨by simp [sectionCount, h1, h2], ?_, ?_⟩
  · simp [okLines, generateMarkdownLines, he, h1]
  · intro hall
    have hf : articles.filter (fun a => isDict a) = articles :=
      List.filter_eq_self.mpr hall
    simp [sectionCount, h1, h2, hf]

/-- A well-formed single-record input list. -/
def c4AllDict : List PyObj :=
  [.dict [("chinese_title", .vstr "标题"), ("summary", .vstr "摘要"),
          ("site", .vstr "https://x")]]

/-- Witness for `markdown_count_and_sections`: a one-record list renders
one section and states a count of 1. -/
theorem markdown_count_and_sections_witness :
    sectionCount (renderSections 1 c4AllDict) = some 1 ∧
    countLine 1 ∈ okLines (generateMarkdownLines c4AllDict none "T") := by
  have h := markdown_count_and_sections c4AllDict none "T" (by decide) (by decide)
  exact ⟨h.2.2 (by decide), h.2.1⟩

/-- The mixed input refuting C4 as stated: a non-dict entry plus one
record. -/
def c4Mixed : List PyObj :=
  [.other "str", .dict [("chinese_title", .vstr "标题"), ("summary", .vstr "摘要"),
    ("site", .vstr "https://x")]]

/-- Counterexample to C4 as stated: on `c4Mixed` (non-empty) the report
states `共收录 2 篇文章` while only 1 item section is rendered — the
stated count includes the skipped non-record entry. -/
theorem markdown_count_vs_sections_counterexample :
    c4Mixed.length = 2 ∧
    countLine 2 ∈ okLines (generateMarkdownLines c4Mixed none "T") ∧
    sectionCount (renderSections 1 c4Mixed) = some 1 := by decide

/-! ## Theorems about the enrichment batcher (claims C1, C2, C9) -/

/-- A non-empty string is not `isEmpty`. -/
theorem isEmpty_false_of_ne (s : String) (h : s ≠ "") : s.isEmpty = false := by
  rcases Bool.eq_false_or_eq_true s.isEmpty with h1 | h1
  · exact absurd ((String.isEmpty_iff _).mp h1) h
  · exact h1

/-- Number of returned records of a batch call (`none` when the call
raised out of the function). -/
def recordCount : Except String (List Dict × AiCache) → Option Nat
  | .ok p => some p.1.length
  | .error _ => none

/-- The `url` field of a fallback record is the article's `url` field. -/
theorem mkFallback_url (a : Dict) (e now : String) :
    dictGetStr (mkFallback a e now) "url" "" = dictGetStr a "url" "" := by
  have hfind : dictFind (mkFallback a e now) "url" =
      some (dictGetD a "url" (.vstr "")) := by
    simp [mkFallback, dictFind]
  simp only [dictGetStr, hfind, dictGetD]
  cases h : dictFind a "url" with
  | none => rfl
  | some v => cases v <;> rfl

/-- Every fallback record carries the explicit error marker `str(e)`. -/
theorem mkFallback_error (a : Dict) (e now : String) :
    dictFind (mkFallback a e now) "error" = some (.vstr e) := by
  simp [mkFallback, dictFind]

/-- Writing records whose urls all differ from `u` leaves the cache at `u`
unchanged. -/
theorem cacheGet_saveAll_of_ne (rs : List Dict) (u : String)
    (h : ∀ r ∈ rs, dictGetStr r "url" "" ≠ u) :
    ∀ c : AiCache, cacheGet (saveAll c rs) u = cacheGet c u := by
  induction rs with
  | nil => intro c; rfl
  | cons r t ih =>
    intro c
    have hr := h r (List.mem_cons_self _ _)
    have ht := fun x hx => h x (List.mem_cons_of_mem _ hx)
    show cacheGet (saveAll _ t) u = cacheGet c u
    rw [ih ht]
    by_cases hu : (dictGetStr r "url" "").isEmpty
    · simp [hu]
    · have : (dictGetStr r "url" "" == u) = false := by
        simp only [beq_eq_false_iff_ne, ne_eq]
        exact hr
      simp [hu, cachePut, cacheGet, List.find?, this]

/-- After the persistence loop, a record with a non-empty url whose url is
unique in the written list is what the cache returns at that url. -/
theorem cacheGet_saveAll_mem (rs : List Dict) (r : Dict)
    (hr : r ∈ rs)
    (hu : ¬(dictGetStr r "url" "").isEmpty)
    (hnodup : (rs.map (fun x => dictGetStr x "url" "")).Nodup) :
    ∀ c : AiCache, cacheGet (saveAll c rs) (dictGetStr r "url" "") = some r := by
  induction rs with
  | nil => cases hr
  | cons x t ih =>
    intro c
    rcases List.nodup_cons.mp hnodup with ⟨hnotin, hnd⟩
    rcases List.mem_cons.mp hr with h1 | h1
    · subst h1
      show cacheGet (saveAll _ t) (dictGetStr r "url" "") = some r
      have hne : ∀ y ∈ t, dictGetStr y "url" "" ≠ dictGetStr r "url" "" := by
        intro y hy hcon
        exact hnotin (List.mem_map.mpr ⟨y, hy, hcon⟩)
      rw [cacheGet_saveAll_of_ne t _ hne]
      have hbe : (dictGetStr r "url" "").isEmpty = false := by
        rcases Bool.eq_false_or_eq_true (dictGetStr r "url" "").isEmpty with h2 | h2
        · exact absurd h2 hu
        · exact h2
      simp [hbe, cachePut, cacheGet, List.find?]
    · show cacheGet (saveAll _ t) (dictGetStr r "url" "") = some r
      exact ih h1 hnd _

/-- Mapping a batch to its fallback records preserves the url list, so
distinctness of batch urls carries over. -/
theorem fallback_urls_nodup (batch : List Dict) (e now : String)
    (hnodup : (batch.map (fun a => dictGetStr a "url" "")).Nodup) :
    ((batch.map (fun a => mkFallback a e now)).map
      (fun x => dictGetStr x "url" "")).Nodup := by
  rw [List.map_map]
  have hfun : ((fun x => dictGetStr x "url" "") ∘ (fun a => mkFallback a e now)) =
      (fun a => dictGetStr a "url" "") := by
    funext a
    exact mkFallback_url a e now
  rw [hfun]
  exact hnodup

/-- The common shape of the `except` arm: with a non-empty miss list and a
configured prompt, a raised service call yields exactly the per-article
fallback records (for the whole batch) and writes them all back. -/
theorem processBatch_error_eq (cache : AiCache) (batch : List Dict)
    (c : NewsConfig) (e now : String)
    (hp : c.ai_prompt ≠ "") (hsy : c.ai_system_prompt ≠ "")
    (hmiss : batchCacheMisses cache batch ≠ []) :
    processBatchWithAi cache batch (some c) (.error e) now =
      .ok (batch.map (fun a => mkFallback a e now),
           saveAll cache (batch.map (fun a => mkFallback a e now))) := by
  have hb : batch ≠ [] := by
    intro hcon
    subst hcon
    exact hmiss rfl
  have hbe : batch.isEmpty = false := by
    cases batch with
    | nil => exact absurd rfl hb
    | cons a t => rfl
  have hme : (batchCacheMisses cache batch).isEmpty = false := by
    cases h : batchCacheMisses cache batch with
    | nil => exact absurd h hmiss
    | cons a t => rfl
  simp [processBatchWithAi, hbe, hme, isEmpty_false_of_ne _ hp,
    isEmpty_false_of_ne _ hsy]

/-- C2: when the service call raises on a batch with at least one cache
miss (e.g. size 3, all misses), the batcher returns exactly one record per
batch item, each carrying the non-empty error marker, and (for distinct
non-empty urls) every fallback record is written to the enrichment cache
keyed by its url. -/
theorem batch_failure_fallback_records (cache : AiCache) (batch : List Dict)
    (c : NewsConfig) (e now : String)
    (hp : c.ai_prompt ≠ "") (hsy : c.ai_system_prompt ≠ "")
    (hmiss : batchCacheMisses cache batch ≠ [])
    (he : e ≠ "")
    (hurl : ∀ a ∈ batch, ¬(dictGetStr a "url" "").isEmpty)
    (hnodup : (batch.map (fun a => dictGetStr a "url" "")).Nodup) :
    processBatchWithAi cache batch (some c) (.error e) now =
      .ok (batch.map (fun a => mkFallback a e now),
           saveAll cache (batch.map (fun a => mkFallback a e now))) ∧
    (batch.map (fun a => mkFallback a e now)).length = batch.length ∧
    (∀ a ∈ batch, dictFind (mkFallback a e now) "error" = some (.vstr e) ∧ e ≠ "") ∧
    (∀ a ∈ batch,
      cacheGet (saveAll cache (batch.map (fun a => mkFallback a e now)))
        (dictGetStr a "url" "") = some (mkFallback a e now)) := by
  have hnodup' := fallback_urls_nodup batch e now hnodup
  refine ⟨processBatch_error_eq cache batch c e now hp hsy hmiss,
    List.length_map _ _, fun a _ => ⟨mkFallback_error a e now, he⟩, fun a ha => ?_⟩
  have := cacheGet_saveAll_mem (batch.map (fun a => mkFallback a e now))
    (mkFallback a e now) (List.mem_map_of_mem _ ha)
    (by rw [mkFallback_url]; exact hurl a ha) hnodup' cache
  rwa [mkFallback_url] at this

/-- Config with both prompts set, for the batch witnesses. -/
def batchCfg : NewsConfig :=
  ⟨"outdoor", "分析以下 {article_count} 篇文章：{batch_content}",
   "你是一个专业的新闻分析助手。", "# 新闻汇总\n"⟩

/-- A three-article batch (all cache misses against the empty cache). -/
def c2Batch : List Dict :=
  [[("title", .vstr "A"), ("url", .vstr "https://x/1"), ("date", .vstr "2024-01-01"),
    ("site", .vstr "https://x"), ("content_text", .vstr "body one")],
   [("title", .vstr "B"), ("url", .vstr "https://x/2"), ("date", .vstr "2024-01-02"),
    ("site", .vstr "https://x"), ("content_text", .vstr "body two")],
   [("title", .vstr "C"), ("url", .vstr "https://x/3"), ("date", .vstr "2024-01-03"),
    ("site", .vstr "https://x"), ("content_text", .vstr "body three")]]

/-- First article of `c2Batch`. -/
def c2A1 : Dict :=
  [("title", .vstr "A"), ("url", .vstr "https://x/1"), ("date", .vstr "2024-01-01"),
   ("site", .vstr "https://x"), ("content_text", .vstr "body one")]

/-- Witness for `batch_failure_fallback_records`: a raised call on the
3-miss batch returns the 3 fallback records (length 3), the first carries
the marker `boom`, and its cache entry holds its fallback record. -/
theorem batch_failure_fallback_records_witness :
    processBatchWithAi [] c2Batch (some batchCfg) (.error "boom") "T" =
      .ok (c2Batch.map (fun a => mkFallback a "boom" "T"),
           saveAll [] (c2Batch.map (fun a => mkFallback a "boom" "T"))) ∧
    (c2Batch.map (fun a => mkFallback a "boom" "T")).length = 3 ∧
    dictFind (mkFallback c2A1 "boom" "T") "error" = some (.vstr "boom") ∧
    cacheGet (saveAll [] (c2Batch.map (fun a => mkFallback a "boom" "T")))
      (dictGetStr c2A1 "url" "") = some (mkFallback c2A1 "boom" "T") := by
  have h := batch_failure_fallback_records [] c2Batch batchCfg "boom" "T"
    (by decide) (by decide) (by decide) (by decide) (by decide) (by decide)
  exact ⟨h.1, h.2.1, (h.2.2.1 c2A1 (by decide)).1, h.2.2.2 c2A1 (by decide)⟩

/-- C1 (amended): for a parsed array response, the batcher maps
`min(responseLength, missCount)` items positionally onto the cache-miss
items and returns `#cacheHits + min(responseLength, missCount)` records —
items beyond the response length receive no record at all on this path
(no fallback is synthesized for the shortfall), and no index-out-of-range
failure occurs (the positional guard `i < len(articles_to_process)` and
the truncation make the function total). -/
theorem batch_short_response_truncates (cache : AiCache) (batch : List Dict)
    (c : NewsConfig) (rs : List PyObj) (now : String)
    (hp : c.ai_prompt ≠ "") (hsy : c.ai_system_prompt ≠ "") :
    recordCount (processBatchWithAi cache batch (some c) (.ok (.arr rs)) now) =
      some ((batchCacheHits cache batch).length +
        min (batchCacheMisses cache batch).length rs.length) := by
  by_cases hb : batch = []
  · subst hb
    simp [processBatchWithAi, recordCount, batchCacheHits, batchCacheMisses]
  · have hbe : batch.isEmpty = false := by
      cases batch with
      | nil => exact absurd rfl hb
      | cons a t => rfl
    by_cases hm : batchCacheMisses cache batch = []
    · have hme : (batchCacheMisses cache batch).isEmpty = true := by
        rw [hm]
        rfl
      simp [processBatchWithAi, hbe, hme, recordCount, hm]
    · have hme : (batchCacheMisses cache batch).isEmpty = false := by
        cases h : batchCacheMisses cache batch with
        | nil => exact absurd h hm
        | cons a t => rfl
      simp [processBatchWithAi, hbe, hme, isEmpty_false_of_ne _ hp,
        isEmpty_false_of_ne _ hsy, recordCount, List.length_zip]

/-- A 2-element parsed response, against the 3-article batch. -/
def c1Results : List PyObj :=
  [.dict [("chinese_title", .vstr "一"), ("summary", .vstr "s1")],
   .dict [("chinese_title", .vstr "二"), ("summary", .vstr "s2")]]

/-- Counterexample to C1 as stated: 2 results for 3 submitted cache-miss
items produce 2 output records, not one per input item — the uncovered
third item gets no fallback record on the successful-parse path. -/
theorem batch_short_response_counterexample :
    c2Batch.length = 3 ∧
    recordCount (processBatchWithAi [] c2Batch (some batchCfg)
      (.ok (.arr c1Results)) "T") = some 2 := by decide

/-- Witness for `batch_short_response_truncates` on the 3-miss batch with
a 2-element response: `0 + min 3 2 = 2` records come back. -/
theorem batch_short_response_truncates_witness :
    recordCount (processBatchWithAi [] c2Batch (some batchCfg)
      (.ok (.arr c1Results)) "T") = some 2 := by
  have h := batch_short_response_truncates [] c2Batch batchCfg c1Results "T"
    (by decide) (by decide)
  rw [h]
  decide

/-- C9: when the service call raises, the batcher synthesizes fallback
records for every article of the original batch — including articles whose
enrichment was already found in the cache — returns only those fallbacks
(the previously loaded cache-hit record `r0` is not in the return value),
and overwrites the cache-hit article's enrichment cache entry with its
error-marked fallback, so that entry does not stay unchanged. -/
theorem batch_failure_overwrites_cache_hits (cache : AiCache)
    (batch : List Dict) (c : NewsConfig) (e now : String) (a0 r0 : Dict)
    (hp : c.ai_prompt ≠ "") (hsy : c.ai_system_prompt ≠ "")
    (hmiss : batchCacheMisses cache batch ≠ [])
    (ha0 : a0 ∈ batch)
    (hhit : cacheHit cache (dictGetStr a0 "url" "") = some r0)
    (hr0 : dictFind r0 "error" = none)
    (hu0 : ¬(dictGetStr a0 "url" "").isEmpty)
    (hnodup : (batch.map (fun a => dictGetStr a "url" "")).Nodup) :
    processBatchWithAi cache batch (some c) (.error e) now =
      .ok (batch.map (fun a => mkFallback a e now),
           saveAll cache (batch.map (fun a => mkFallback a e now))) ∧
    r0 ∉ batch.map (fun a => mkFallback a e now) ∧
    cacheGet (saveAll cache (batch.map (fun a => mkFallback a e now)))
      (dictGetStr a0 "url" "") = some (mkFallback a0 e now) ∧
    some (mkFallback a0 e now) ≠ cacheHit cache (dictGetStr a0 "url" "") := by
  have hne : mkFallback a0 e now ≠ r0 := by
    intro hcon
    have hmark := mkFallback_error a0 e now
    rw [hcon, hr0] at hmark
    exact Option.noConfusion hmark
  have hnotin : r0 ∉ batch.map (fun a => mkFallback a e now) := by
    intro hmem
    rcases List.mem_map.mp hmem with ⟨a1, _, ha1⟩
    have hmark := mkFallback_error a1 e now
    rw [ha1, hr0] at hmark
    exact Option.noConfusion hmark
  refine ⟨processBatch_error_eq cache batch c e now hp hsy hmiss, hnotin, ?_, ?_⟩
  · have hmem := cacheGet_saveAll_mem (batch.map (fun a => mkFallback a e now))
      (mkFallback a0 e now) (List.mem_map_of_mem _ ha0)
      (by rw [mkFallback_url]; exact hu0)
      (fallback_urls_nodup batch e now hnodup) cache
    rwa [mkFallback_url] at hmem
  · rw [hhit]
    intro hcon
    exact hne (Option.some.inj hcon)

/-- The record sitting in the enrichment cache for the first article
before the failing run (no error marker). -/
def c9CachedRec : Dict :=
  [("original_title", .vstr "A"), ("chinese_title", .vstr "甲"),
   ("summary", .vstr "旧摘要"), ("url", .vstr "https://x/1")]

/-- A cache holding an enrichment entry for the first batch article. -/
def c9Cache : AiCache := [("https://x/1", c9CachedRec)]

/-- Witness for `batch_failure_overwrites_cache_hits`: with article 1 a
cache hit and articles 2–3 misses, a raised call returns the 3 fallbacks,
drops the cached record from the output, and replaces its cache entry. -/
theorem batch_failure_overwrites_cache_hits_witness :
    processBatchWithAi c9Cache c2Batch (some batchCfg) (.error "boom") "T" =
      .ok (c2Batch.map (fun a => mkFallback a "boom" "T"),
           saveAll c9Cache (c2Batch.map (fun a => mkFallback a "boom" "T"))) ∧
    c9CachedRec ∉ c2Batch.map (fun a => mkFallback a "boom" "T") ∧
    cacheGet (saveAll c9Cache (c2Batch.map (fun a => mkFallback a "boom" "T")))
      (dictGetStr c2A1 "url" "") = some (mkFallback c2A1 "boom" "T") ∧
    some (mkFallback c2A1 "boom" "T") ≠
      cacheHit c9Cache (dictGetStr c2A1 "url" "") := by
  exact batch_failure_overwrites_cache_hits c9Cache c2Batch batchCfg "boom" "T"
    c2A1 c9CachedRec (by decide) (by decide) (by decide) (by decide)
    (by decide) (by decide) (by decide) (by decide)

end Newsletter
